import Mathlib

/-!
Shallow embedding of the resumable multipart-transfer core of the
ve-tos-golang-sdk repository (files `tos/type_internal.go` and
`tos/client.go`), together with theorems checking the natural-language
specification against it.

Modelling conventions:
* Go `time.Time` values are modelled as `Int` (Unix nanoseconds); Go
  `time.Duration` (an `int64` of nanoseconds) is modelled as `Int`.
* Go `int`/`int64` are modelled as `Int`, `uint64` as `Nat` (no overflow
  occurs in the modelled code paths).
* Effectful collaborators (`json.Marshal`, `ioutil.WriteFile`, the work
  function given to the retryer, the base reader of a stream decorator)
  are passed in as explicit functions describing their outcomes.
* Stateful methods become functions from the receiver state to the
  updated state, paired with a trace of the observable events they emit.
-/

namespace Tos

/-- Go `time.Duration` in nanoseconds. -/
abbrev duration := Int

/-- Go `time.Time` as Unix nanoseconds. -/
abbrev timeStamp := Int

/-! ## Checkpoint data model (`type_internal.go`) -/

/-- Structure `downloadObjectInfo` from `type_internal.go`. -/
structure downloadObjectInfo where
  Etag : String
  HashCrc64ecma : Nat
  LastModified : timeStamp
  ObjectSize : Int
  deriving DecidableEq, Repr

/-- Structure `downloadFileInfo` from `type_internal.go`. -/
structure downloadFileInfo where
  FilePath : String
  TempFilePath : String
  deriving DecidableEq, Repr

/-- Structure `downloadPartInfo` from `type_internal.go`. -/
structure downloadPartInfo where
  PartNumber : Int
  RangeStart : Int
  RangeEnd : Int
  HashCrc64ecma : Nat
  IsCompleted : Bool
  deriving DecidableEq, Repr

/-- Structure `downloadCheckpoint` from `type_internal.go`. -/
structure downloadCheckpoint where
  checkpointPath : String
  Bucket : String
  Key : String
  VersionID : String
  PartSize : Int
  IfMatch : String
  IfModifiedSince : timeStamp
  IfNoneMatch : String
  IfUnmodifiedSince : timeStamp
  SSECAlgorithm : String
  SSECKeyMD5 : String
  ObjectInfo : downloadObjectInfo
  FileInfo : downloadFileInfo
  PartsInfo : List downloadPartInfo
  deriving DecidableEq, Repr

/-- The fields of `DownloadFileInput` read by the code under `src/`. -/
structure DownloadFileInput where
  Bucket : String
  Key : String
  VersionID : String
  PartSize : Int
  IfMatch : String
  IfModifiedSince : timeStamp
  IfNoneMatch : String
  IfUnmodifiedSince : timeStamp
  SSECAlgorithm : String
  SSECKeyMD5 : String
  FilePath : String
  deriving DecidableEq, Repr

/-- The fields of `HeadObjectV2Output` read by the code under `src/`. -/
structure HeadObjectV2Output where
  ETag : String
  HashCrc64ecma : Nat
  LastModified : timeStamp
  ContentLength : Int
  deriving DecidableEq, Repr

/-- Method `downloadCheckpoint.Valid` from `type_internal.go` (lines 132-148):
three guard blocks returning `false` on any mismatch, then `true`. -/
def downloadCheckpoint.Valid (c : downloadCheckpoint) (input : DownloadFileInput)
    (head : HeadObjectV2Output) : Bool :=
  if c.Bucket ≠ input.Bucket ∨ c.Key ≠ input.Key ∨ c.VersionID ≠ input.VersionID ∨
      c.PartSize ≠ input.PartSize ∨
      c.IfMatch ≠ input.IfMatch ∨ c.IfModifiedSince ≠ input.IfModifiedSince ∨
      c.IfNoneMatch ≠ input.IfNoneMatch ∨
      c.IfUnmodifiedSince ≠ input.IfUnmodifiedSince ∨
      c.SSECAlgorithm ≠ input.SSECAlgorithm ∨ c.SSECKeyMD5 ≠ input.SSECKeyMD5 then
    false
  else if c.ObjectInfo.Etag ≠ head.ETag ∨ c.ObjectInfo.HashCrc64ecma ≠ head.HashCrc64ecma ∨
      c.ObjectInfo.LastModified ≠ head.LastModified ∨
      c.ObjectInfo.ObjectSize ≠ head.ContentLength then
    false
  else if c.FileInfo.FilePath ≠ input.FilePath then
    false
  else
    true

/-- Method `downloadCheckpoint.UpdatePartsInfo` from `type_internal.go`:
`c.PartsInfo[part.PartNumber-1] = part`. -/
def downloadCheckpoint.UpdatePartsInfo (c : downloadCheckpoint)
    (part : downloadPartInfo) : downloadCheckpoint :=
  { c with PartsInfo := c.PartsInfo.set (part.PartNumber - 1).toNat part }

/-- Structure `fileInfo` from `type_internal.go` (upload checkpoint's local-file stamp). -/
structure fileInfo where
  LastModified : Int
  Size : Int
  deriving DecidableEq, Repr

/-- Structure `uploadPartInfo` from `type_internal.go`. -/
structure uploadPartInfo where
  uploadID : Option String
  PartNumber : Int
  PartSize : Int
  Offset : Nat
  ETag : String
  HashCrc64ecma : Nat
  IsCompleted : Bool
  deriving DecidableEq, Repr

/-- Structure `uploadCheckpoint` from `type_internal.go`. -/
structure uploadCheckpoint where
  checkpointPath : String
  Bucket : String
  Key : String
  UploadID : String
  PartSize : Int
  SSECAlgorithm : String
  SSECKeyMD5 : String
  EncodingType : String
  FilePath : String
  FileInfo : fileInfo
  PartsInfo : List uploadPartInfo
  deriving DecidableEq, Repr

/-- The results of the two `os.FileInfo` calls made by `uploadCheckpoint.Valid`:
`Size()` and `ModTime().Unix()`. -/
structure osFileStat where
  size : Int
  modTimeUnix : Int
  deriving DecidableEq, Repr

/-- Method `uploadCheckpoint.Valid` from `type_internal.go` (lines 184-192). -/
def uploadCheckpoint.Valid (u : uploadCheckpoint) (uploadFileStat : osFileStat)
    (bucketName key uploadFile : String) : Bool :=
  if u.UploadID = "" ∨ u.Bucket ≠ bucketName ∨ u.Key ≠ key ∨ u.FilePath ≠ uploadFile then
    false
  else if u.FileInfo.Size ≠ uploadFileStat.size ∨
      u.FileInfo.LastModified ≠ uploadFileStat.modTimeUnix then
    false
  else
    true

/-- Structure `UploadedPartV2` as used by `uploadCheckpoint.GetParts` (fields
`PartNumber` and `ETag`). -/
structure UploadedPartV2 where
  PartNumber : Int
  ETag : String
  deriving DecidableEq, Repr

/-- Method `uploadCheckpoint.GetParts` from `type_internal.go` (lines 194-203):
appends one `UploadedPartV2` per entry of `PartsInfo`, in order. -/
def uploadCheckpoint.GetParts (u : uploadCheckpoint) : List UploadedPartV2 :=
  u.PartsInfo.map fun p => { PartNumber := p.PartNumber, ETag := p.ETag }

/-- Method `uploadCheckpoint.UpdatePartsInfo` from `type_internal.go`:
`u.PartsInfo[part.PartNumber-1] = part`. -/
def uploadCheckpoint.UpdatePartsInfo (u : uploadCheckpoint)
    (part : uploadPartInfo) : uploadCheckpoint :=
  { u with PartsInfo := u.PartsInfo.set (part.PartNumber - 1).toNat part }

/-! ## Checkpoint persistence (`WriteToFile`, `type_internal.go`)

`json.Marshal` and `ioutil.WriteFile` are external effects; their
outcomes are passed in as functions.  A marshal outcome is
`Except String String` (error message, or the serialized bytes); a write
outcome is `Option String` (`some` error message on failure, `none` on
success), depending on the target path and the bytes written. -/

/-- Error value `TosClientError` as produced by `newTosClientError(err.Error(), err)`:
the message and the wrapped cause. -/
structure tosClientError where
  message : String
  cause : String
  deriving DecidableEq, Repr

/-- Constructor `newTosClientError` from the repository's error helpers. -/
def newTosClientError (message cause : String) : tosClientError :=
  { message := message, cause := cause }

/-- Method `downloadCheckpoint.WriteToFile` from `type_internal.go` (lines 120-130):
marshal the checkpoint, then write the buffer to `checkpointPath`; each
failure is wrapped in a client error, success returns `nil` (`none`). -/
def downloadCheckpoint.WriteToFile (c : downloadCheckpoint)
    (jsonMarshal : downloadCheckpoint → Except String String)
    (writeFile : String → String → Option String) : Option tosClientError :=
  match jsonMarshal c with
  | Except.error e => some (newTosClientError e e)
  | Except.ok buffer =>
    match writeFile c.checkpointPath buffer with
    | some e => some (newTosClientError e e)
    | none => none

/-- Method `uploadCheckpoint.WriteToFile` from `type_internal.go` (lines 209-219). -/
def uploadCheckpoint.WriteToFile (u : uploadCheckpoint)
    (jsonMarshal : uploadCheckpoint → Except String String)
    (writeFile : String → String → Option String) : Option tosClientError :=
  match jsonMarshal u with
  | Except.error e => some (newTosClientError e e)
  | Except.ok result =>
    match writeFile u.checkpointPath result with
    | some e => some (newTosClientError e e)
    | none => none

/-! ## Retry policy (`type_internal.go` lines 397-488)

`retryer.Run` is modelled with explicit time: `time.Now()` is an `Int`
that advances by the slept duration at each `time.Sleep`.  The work
function's outcome on its `i`-th invocation (0-based) is `work i`, where
`none` models a `nil` error.  The model returns, besides Go's return
value, the number of calls made to `work` and the list of sleeps
actually performed, so that the spec's attempt-counting claims can be
stated. -/

/-- Enumeration `retryAction` from `type_internal.go`. -/
inductive retryAction where
  | NoRetry
  | Retry
  deriving DecidableEq, Repr

/-- Function `exponentialBackoff` from `type_internal.go` (lines 412-419): each
loop iteration stores the current base and then multiplies it by 1. -/
def exponentialBackoff : Nat → duration → List duration
  | 0, _ => []
  | n + 1, base => base :: exponentialBackoff n (base * 1)

/-- Structure `retryer` from `type_internal.go`: a backoff pattern and a jitter
factor (the Go field is a `float64`; it is modelled as a rational). -/
structure retryer where
  backoff : List duration
  jitter : ℚ
  deriving DecidableEq, Repr

/-- Method `retryer.SetBackoff` from `type_internal.go`. -/
def retryer.SetBackoff (r : retryer) (backoff : List duration) : retryer :=
  { r with backoff := backoff }

/-- Constructor `newRetryer` from `type_internal.go`. -/
def newRetryer (backoff : List duration) : retryer :=
  { backoff := backoff, jitter := 0 }

/-- Method `retryer.calcSleep` from `type_internal.go` (lines 476-479): despite
the comment about a random jitter factor, it returns `r.backoff[i]`
unchanged.  Indexing with a default mirrors Go's panic-free use: `Run`
only calls it with `i < len(r.backoff)`. -/
def retryer.calcSleep (r : retryer) (i : Nat) : duration :=
  r.backoff.getD i 0

/-- Method `retryer.SetJitter` from `type_internal.go` (lines 483-488): values
outside `[0, 1]` are silently ignored. -/
def retryer.SetJitter (r : retryer) (jit : ℚ) : retryer :=
  if jit < 0 ∨ jit > 1 then r else { r with jitter := jit }

/-- A Go `context.Context` as observed by `worthToRetry`: a cancellation
flag and an optional deadline (Unix nanoseconds).  `ctx.Err()` is
non-nil when the context was cancelled or its deadline has passed. -/
structure goContext where
  cancelled : Bool
  deadline : Option timeStamp
  deriving DecidableEq, Repr

/-- Whether `ctx.Err()` returns a non-nil error at time `now`. -/
def goContext.errAt (ctx : goContext) (now : timeStamp) : Bool :=
  ctx.cancelled ||
    match ctx.deadline with
    | some d => decide (d ≤ now)
    | none => false

/-- Function `worthToRetry` from `type_internal.go` (lines 440-453): a nil context
is always worth retrying; a context with a non-nil error is not; without
a deadline it is; otherwise the scheduled wait must fit before the
deadline (`now + waitTime <= deadline`). -/
def worthToRetry (ctx : Option goContext) (now : timeStamp) (waitTime : duration) : Bool :=
  match ctx with
  | none => true
  | some c =>
    if c.errAt now then false
    else
      match c.deadline with
      | none => true
      | some d => decide (now + waitTime ≤ d)

/-- The observable outcome of a `retryer.Run` execution: how many times
`work` was called, which sleeps were performed (in order), and the error
`Run` returns (`none` = `nil`). -/
structure runTrace where
  calls : Nat
  sleeps : List duration
  result : Option Nat
  deriving DecidableEq, Repr

/-- The retry loop of `retryer.Run` (lines 464-472), at an arbitrary
iteration: `backoffRem` is the unprocessed tail of the backoff pattern,
`calls` the number of `work` calls already made, `ferr` the last result
(`ferr = work (calls-1)`), and `now` the current time.  Each iteration
checks the classifier, then `worthToRetry`; on failure of the latter it
returns `ferr` immediately; otherwise it sleeps (advancing `now`) and
calls `work` again. -/
def runAux (ctx : Option goContext) (work : Nat → Option Nat)
    (classify : Option Nat → retryAction) :
    List duration → Nat → Option Nat → timeStamp → runTrace
  | [], calls, ferr, _ => { calls := calls, sleeps := [], result := ferr }
  | sleepTime :: rest, calls, ferr, now =>
    if classify ferr = retryAction.Retry then
      if worthToRetry ctx now sleepTime then
        let t := runAux ctx work classify rest (calls + 1) (work calls) (now + sleepTime)
        { t with sleeps := sleepTime :: t.sleeps }
      else
        { calls := calls, sleeps := [], result := ferr }
    else
      { calls := calls, sleeps := [], result := ferr }

/-- Method `retryer.Run` from `type_internal.go` (lines 460-474): one initial
call to `work`, then the retry loop over the backoff pattern.  Note that
the sleep of iteration `i` is `calcSleep i = backoff[i]`, so the loop is
exactly `runAux` on the whole backoff list. -/
def retryer.Run (r : retryer) (ctx : Option goContext) (work : Nat → Option Nat)
    (classify : Option Nat → retryAction) (now : timeStamp) : runTrace :=
  runAux ctx work classify r.backoff 1 (work 0) now

/-! ## Cancellation coordinator (`canceler`, `type_internal.go` lines 51-75)

The body of `Cancel` is guarded by an atomic compare-and-swap of the
`called` flag, so any set of invocations — concurrent ones included —
linearizes to a sequence of calls against the shared state.  The state
records the observable side effects in order: a run of the cleaner, a
run of the aborter, and the close of the cancel handle. -/

/-- An observable side effect of `canceler.Cancel`. -/
inductive cancelEvent where
  | cleanerRun
  | aborterRun
  | handleClosed
  deriving DecidableEq, Repr

/-- The state shared by all invocations of `canceler.Cancel`:
whether `cancelHandle` is non-nil, the `called` flag, whether a cleaner
and an aborter were installed, and the trace of effects so far. -/
structure cancelerState where
  hasHandle : Bool
  called : Bool
  hasCleaner : Bool
  hasAborter : Bool
  events : List cancelEvent
  deriving DecidableEq, Repr

/-- Method `canceler.Cancel` from `type_internal.go` (lines 60-75): return if
the handle is nil; otherwise, if the CAS on `called` succeeds, run the
cleaner then the aborter (each only if installed, and only when
`isAbort`), then close the handle; otherwise do nothing. -/
def canceler.Cancel (s : cancelerState) (isAbort : Bool) : cancelerState :=
  if s.hasHandle = false then s
  else if s.called = false then
    let abortEvents :=
      if isAbort then
        (if s.hasCleaner then [cancelEvent.cleanerRun] else []) ++
          (if s.hasAborter then [cancelEvent.aborterRun] else [])
      else []
    { s with called := true,
             events := s.events ++ abortEvents ++ [cancelEvent.handleClosed] }
  else s

/-- A sequence of `Cancel` invocations (one `isAbort` flag per call),
applied in linearization order. -/
def canceler.runCancels (s : cancelerState) (calls : List Bool) : cancelerState :=
  calls.foldl canceler.Cancel s

/-- Whether a cancel event is one of the two guarded side effects
(cleanup or abort). -/
def cancelEvent.isEffect : cancelEvent → Bool
  | cancelEvent.cleanerRun => true
  | cancelEvent.aborterRun => true
  | cancelEvent.handleClosed => false

/-! ## Parallel progress decorator
(`parallelReadCloserWithListener.Read`, `type_internal.go` lines 520-558)

One `Read` call is modelled by the pair `(n, isErr)` returned by the
wrapped reader: `n` bytes read and whether a non-nil, non-EOF error
occurred (an EOF with `n > 0` behaves like a success, as in the code).
The shared atomic counters `consumed` and `subtotal` form the state; the
events posted to the listener are returned as a trace. -/

/-- A `DataTransferStatus` event posted to the listener. -/
inductive transferEvent where
  | started
  | rw (rwOnceBytes consumedBytes totalBytes : Int)
  | succeed (consumedBytes totalBytes : Int)
  | failed
  deriving DecidableEq, Repr

/-- The 4 MiB flush threshold hard-coded in
`parallelReadCloserWithListener.Read`. -/
def flushThreshold : Int := 4 * 1024 * 1024

/-- The shared counters of `parallelReadCloserWithListener`. -/
structure listenerState where
  consumed : Int
  subtotal : Int
  deriving DecidableEq, Repr

/-- One call to `parallelReadCloserWithListener.Read`
(`type_internal.go` lines 520-558), given the wrapped reader's outcome:
on a non-EOF error post `Failed`; on `n <= 0` do nothing; otherwise add
`n` to both shared counters, post an `RW` event and reset the subtotal
when it reaches 4 MiB, and when consumed reaches the total, flush a
below-threshold subtotal as a final `RW` event and post `Succeed`. -/
def parallelRead (total : Int) (s : listenerState) (n : Int) (isErr : Bool) :
    listenerState × List transferEvent :=
  if isErr then (s, [transferEvent.failed])
  else if n ≤ 0 then (s, [])
  else
    let consumed := s.consumed + n
    let subtotal := s.subtotal + n
    let flushed := flushThreshold ≤ subtotal
    let storedSubtotal := if flushed then 0 else subtotal
    let rwEvents :=
      if flushed then [transferEvent.rw subtotal consumed total] else []
    let finalEvents :=
      if consumed = total then
        (if subtotal < flushThreshold then [transferEvent.rw subtotal consumed total]
         else []) ++ [transferEvent.succeed consumed total]
      else []
    ({ consumed := consumed, subtotal := storedSubtotal }, rwEvents ++ finalEvents)

/-- A sequence of `Read` calls against the same decorator, in
linearization order, concatenating the posted events. -/
def parallelReads (total : Int) (s : listenerState) :
    List (Int × Bool) → listenerState × List transferEvent
  | [] => (s, [])
  | r :: rest =>
    ((parallelReads total (parallelRead total s r.1 r.2).1 rest).1,
      (parallelRead total s r.1 r.2).2 ++
        (parallelReads total (parallelRead total s r.1 r.2).1 rest).2)

/-- Whether an event is a `Succeed` event. -/
def transferEvent.isSucceed : transferEvent → Bool
  | transferEvent.succeed _ _ => true
  | _ => false

/-- Number of `Succeed` events in a trace. -/
def succeedCount (evts : List transferEvent) : Nat :=
  evts.countP transferEvent.isSucceed

/-! ## Theorems -/

/-- C8: for every `n ≥ 0` and every base duration, the backoff sequence
generated by `exponentialBackoff` has length `n` and every entry equals
the base duration (each step multiplies the base by 1, so the sequence
never grows between attempts). -/
theorem exponentialBackoff_flat (n : Nat) (base : duration) :
    (exponentialBackoff n base).length = n ∧
      exponentialBackoff n base = List.replicate n base := by
  induction n generalizing base with
  | zero => simp [exponentialBackoff]
  | succ m ih =>
    have h := ih base
    simp only [exponentialBackoff, mul_one, List.replicate_succ]
    exact ⟨by simp [h.1], by rw [h.2]⟩

/-- C7 (code evaluated at the failing input): the retry policy's
computed sleep ignores the configured jitter factor entirely.  With the
backoff `[100ms]` and the jitter `1/4` installed by `SetJitter` (as
`NewClientV2` does), `calcSleep 0` is exactly the base `100ms`, equal to
the sleep computed with no jitter configured at all — the perturbation
described in `calcSleep`'s own comment and `SetJitter`'s documentation
never happens. -/
theorem calcSleep_ignores_jitter :
    ((newRetryer [100000000]).SetJitter (1/4)).jitter = 1/4 ∧
      ((newRetryer [100000000]).SetJitter (1/4)).calcSleep 0 =
        (newRetryer [100000000]).calcSleep 0 ∧
      ((newRetryer [100000000]).SetJitter (1/4)).calcSleep 0 = 100000000 := by
  have hs : (newRetryer [100000000]).SetJitter (1/4) =
      { backoff := [100000000], jitter := 1/4 } := by
    norm_num [retryer.SetJitter, newRetryer]
  rw [hs]
  exact ⟨rfl, rfl, rfl⟩

/-- C10: `uploadCheckpoint.GetParts` returns exactly one entry per part
record, in the same order, copying each record's part number and entity
tag — the completion flag is not consulted, so incomplete parts are not
filtered out; and when the index identity holds on the part records it
holds on the returned list (ascending part numbers). -/
theorem GetParts_one_per_record (u : uploadCheckpoint) :
    (u.GetParts).length = u.PartsInfo.length ∧
      (∀ i : Nat, (u.GetParts)[i]? =
        (u.PartsInfo)[i]?.map fun p => { PartNumber := p.PartNumber, ETag := p.ETag }) ∧
      ((∀ i : Nat, ∀ p ∈ (u.PartsInfo)[i]?, p.PartNumber = (i : Int) + 1) →
        ∀ i : Nat, ∀ q ∈ (u.GetParts)[i]?, q.PartNumber = (i : Int) + 1) := by
  refine ⟨by simp [uploadCheckpoint.GetParts], ?_, ?_⟩
  · intro i
    simp [uploadCheckpoint.GetParts]
  · intro h i q hq
    simp only [uploadCheckpoint.GetParts, List.getElem?_map, Option.mem_def,
      Option.map_eq_some'] at hq
    obtain ⟨p, hp, rfl⟩ := hq
    exact h i p hp

/-- C10 witness: on a concrete checkpoint with one complete and one
incomplete part record, `GetParts` still returns one entry per record. -/
theorem GetParts_one_per_record_witness :
    (uploadCheckpoint.GetParts
      { checkpointPath := "cp", Bucket := "b", Key := "k", UploadID := "uid",
        PartSize := 4, SSECAlgorithm := "", SSECKeyMD5 := "", EncodingType := "",
        FilePath := "f", FileInfo := { LastModified := 1, Size := 8 },
        PartsInfo :=
          [{ uploadID := none, PartNumber := 1, PartSize := 4, Offset := 0,
             ETag := "e1", HashCrc64ecma := 0, IsCompleted := true },
           { uploadID := none, PartNumber := 2, PartSize := 4, Offset := 4,
             ETag := "", HashCrc64ecma := 0, IsCompleted := false }] }).length = 2 := by
  have h := (GetParts_one_per_record
    { checkpointPath := "cp", Bucket := "b", Key := "k", UploadID := "uid",
      PartSize := 4, SSECAlgorithm := "", SSECKeyMD5 := "", EncodingType := "",
      FilePath := "f", FileInfo := { LastModified := 1, Size := 8 },
      PartsInfo :=
        [{ uploadID := none, PartNumber := 1, PartSize := 4, Offset := 0,
           ETag := "e1", HashCrc64ecma := 0, IsCompleted := true },
         { uploadID := none, PartNumber := 2, PartSize := 4, Offset := 4,
           ETag := "", HashCrc64ecma := 0, IsCompleted := false }] }).1
  simpa using h

/-- C9: for both checkpoint variants, `WriteToFile` returns `nil`
exactly when serialization and the file write both succeed; a marshal
failure or a write failure is returned as a client error wrapping that
failure, never silently swallowed. -/
theorem WriteToFile_error_iff (c : downloadCheckpoint) (u : uploadCheckpoint)
    (mD : downloadCheckpoint → Except String String)
    (mU : uploadCheckpoint → Except String String)
    (w : String → String → Option String) :
    (c.WriteToFile mD w = none ↔
        ∃ buf, mD c = Except.ok buf ∧ w c.checkpointPath buf = none) ∧
      (∀ e, mD c = Except.error e →
        c.WriteToFile mD w = some (newTosClientError e e)) ∧
      (∀ buf e, mD c = Except.ok buf → w c.checkpointPath buf = some e →
        c.WriteToFile mD w = some (newTosClientError e e)) ∧
      (u.WriteToFile mU w = none ↔
        ∃ buf, mU u = Except.ok buf ∧ w u.checkpointPath buf = none) ∧
      (∀ e, mU u = Except.error e →
        u.WriteToFile mU w = some (newTosClientError e e)) ∧
      (∀ buf e, mU u = Except.ok buf → w u.checkpointPath buf = some e →
        u.WriteToFile mU w = some (newTosClientError e e)) := by
  refine ⟨?_, ?_, ?_, ?_, ?_, ?_⟩
  · cases hm : mD c with
    | error e => simp [downloadCheckpoint.WriteToFile, hm]
    | ok buf =>
      cases hw : w c.checkpointPath buf with
      | none => simp [downloadCheckpoint.WriteToFile, hm, hw]
      | some e => simp [downloadCheckpoint.WriteToFile, hm, hw]
  · intro e hm
    simp [downloadCheckpoint.WriteToFile, hm]
  · intro buf e hm hw
    simp [downloadCheckpoint.WriteToFile, hm, hw]
  · cases hm : mU u with
    | error e => simp [uploadCheckpoint.WriteToFile, hm]
    | ok buf =>
      cases hw : w u.checkpointPath buf with
      | none => simp [uploadCheckpoint.WriteToFile, hm, hw]
      | some e => simp [uploadCheckpoint.WriteToFile, hm, hw]
  · intro e hm
    simp [uploadCheckpoint.WriteToFile, hm]
  · intro buf e hm hw
    simp [uploadCheckpoint.WriteToFile, hm, hw]

/-- A concrete download checkpoint used by witnesses. -/
def sampleDownloadCp : downloadCheckpoint :=
  { checkpointPath := "cp", Bucket := "b", Key := "k", VersionID := "v",
    PartSize := 4, IfMatch := "", IfModifiedSince := 0, IfNoneMatch := "",
    IfUnmodifiedSince := 0, SSECAlgorithm := "", SSECKeyMD5 := "",
    ObjectInfo := { Etag := "et", HashCrc64ecma := 7, LastModified := 5, ObjectSize := 8 },
    FileInfo := { FilePath := "f", TempFilePath := "f.tmp" },
    PartsInfo :=
      [{ PartNumber := 1, RangeStart := 0, RangeEnd := 3, HashCrc64ecma := 0,
         IsCompleted := true },
       { PartNumber := 2, RangeStart := 4, RangeEnd := 7, HashCrc64ecma := 0,
         IsCompleted := false }] }

/-- A concrete upload checkpoint used by witnesses. -/
def sampleUploadCp : uploadCheckpoint :=
  { checkpointPath := "cp", Bucket := "b", Key := "k", UploadID := "uid",
    PartSize := 4, SSECAlgorithm := "", SSECKeyMD5 := "", EncodingType := "",
    FilePath := "f", FileInfo := { LastModified := 10, Size := 20 },
    PartsInfo :=
      [{ uploadID := none, PartNumber := 1, PartSize := 4, Offset := 0,
         ETag := "e1", HashCrc64ecma := 0, IsCompleted := true },
       { uploadID := none, PartNumber := 2, PartSize := 4, Offset := 4,
         ETag := "", HashCrc64ecma := 0, IsCompleted := false }] }

/-- C9 witness: on a concrete checkpoint whose marshal and write both
succeed, `WriteToFile` returns `nil`. -/
theorem WriteToFile_error_iff_witness :
    sampleDownloadCp.WriteToFile (fun _ => Except.ok "bytes") (fun _ _ => none) = none :=
  (WriteToFile_error_iff sampleDownloadCp sampleUploadCp
    (fun _ => Except.ok "bytes") (fun _ => Except.ok "bytes")
    (fun _ _ => none)).1.mpr ⟨"bytes", rfl, rfl⟩

/-- C1 counterexample: the claim fails for the upload-checkpoint
variant.  On a concrete upload checkpoint that validates against a fixed
live file stat, changing the checkpoint's part-size field alone leaves
`Valid` returning `true`: `uploadCheckpoint.Valid` never consults
`PartSize` (nor conditional headers, encryption parameters, or remote
metadata). -/
theorem uploadValid_ignores_partSize :
    uploadCheckpoint.Valid
        { checkpointPath := "cp", Bucket := "b", Key := "k", UploadID := "uid",
          PartSize := 4, SSECAlgorithm := "", SSECKeyMD5 := "", EncodingType := "",
          FilePath := "f", FileInfo := { LastModified := 10, Size := 20 },
          PartsInfo := [] }
        { size := 20, modTimeUnix := 10 } "b" "k" "f" = true ∧
      uploadCheckpoint.Valid
        { checkpointPath := "cp", Bucket := "b", Key := "k", UploadID := "uid",
          PartSize := 999, SSECAlgorithm := "", SSECKeyMD5 := "", EncodingType := "",
          FilePath := "f", FileInfo := { LastModified := 10, Size := 20 },
          PartsInfo := [] }
        { size := 20, modTimeUnix := 10 } "b" "k" "f" = true := by
  constructor <;> decide

/-- C1 (amended): validation is all-or-nothing over exactly the fields
each variant checks.  The download variant returns `true` iff bucket,
key, version id, part size, every conditional-request header, both SSE-C
parameters, every live remote-metadata field (entity tag, checksum,
last-modified, size), and the local file path all match exactly — so
changing any one of them makes it return `false`.  The upload variant
returns `true` iff the stored upload id is non-empty and bucket, key,
file path, file size and file modification time match exactly; its part
size, conditional/encryption fields and per-part data are not checked. -/
theorem valid_characterization (c : downloadCheckpoint) (input : DownloadFileInput)
    (head : HeadObjectV2Output) (u : uploadCheckpoint) (stat : osFileStat)
    (bucketName key uploadFile : String) :
    (c.Valid input head = true ↔
        (c.Bucket = input.Bucket ∧ c.Key = input.Key ∧ c.VersionID = input.VersionID ∧
          c.PartSize = input.PartSize ∧ c.IfMatch = input.IfMatch ∧
          c.IfModifiedSince = input.IfModifiedSince ∧ c.IfNoneMatch = input.IfNoneMatch ∧
          c.IfUnmodifiedSince = input.IfUnmodifiedSince ∧
          c.SSECAlgorithm = input.SSECAlgorithm ∧ c.SSECKeyMD5 = input.SSECKeyMD5 ∧
          c.ObjectInfo.Etag = head.ETag ∧ c.ObjectInfo.HashCrc64ecma = head.HashCrc64ecma ∧
          c.ObjectInfo.LastModified = head.LastModified ∧
          c.ObjectInfo.ObjectSize = head.ContentLength ∧
          c.FileInfo.FilePath = input.FilePath)) ∧
      (u.Valid stat bucketName key uploadFile = true ↔
        (u.UploadID ≠ "" ∧ u.Bucket = bucketName ∧ u.Key = key ∧
          u.FilePath = uploadFile ∧ u.FileInfo.Size = stat.size ∧
          u.FileInfo.LastModified = stat.modTimeUnix)) := by
  constructor
  · unfold downloadCheckpoint.Valid
    split_ifs with h1 h2 h3 <;> simp <;> tauto
  · unfold uploadCheckpoint.Valid
    split_ifs with h1 h2 <;> simp <;> tauto

/-- C1 witness: the amended characterization applied to a concrete
matching pair yields `Valid = true` for the download variant. -/
theorem valid_characterization_witness :
    downloadCheckpoint.Valid sampleDownloadCp
      { Bucket := "b", Key := "k", VersionID := "v", PartSize := 4, IfMatch := "",
        IfModifiedSince := 0, IfNoneMatch := "", IfUnmodifiedSince := 0,
        SSECAlgorithm := "", SSECKeyMD5 := "", FilePath := "f" }
      { ETag := "et", HashCrc64ecma := 7, LastModified := 5, ContentLength := 8 } = true :=
  (valid_characterization sampleDownloadCp
    { Bucket := "b", Key := "k", VersionID := "v", PartSize := 4, IfMatch := "",
      IfModifiedSince := 0, IfNoneMatch := "", IfUnmodifiedSince := 0,
      SSECAlgorithm := "", SSECKeyMD5 := "", FilePath := "f" }
    { ETag := "et", HashCrc64ecma := 7, LastModified := 5, ContentLength := 8 }
    sampleUploadCp { size := 20, modTimeUnix := 10 } "b" "k" "f").1.mpr
    ⟨rfl, rfl, rfl, rfl, rfl, rfl, rfl, rfl, rfl, rfl, rfl, rfl, rfl, rfl, rfl⟩

/-- C6: for both checkpoint variants, recording a part record `p` with
`1 ≤ p.PartNumber ≤ length` writes `p` into slot `PartNumber - 1`,
leaves every other slot and every other checkpoint field unchanged, and
preserves the invariant that the record at index `i` has part number
`i + 1`. -/
theorem UpdatePartsInfo_frame (c : downloadCheckpoint) (p : downloadPartInfo)
    (u : uploadCheckpoint) (q : uploadPartInfo)
    (hc1 : 1 ≤ p.PartNumber) (hc2 : p.PartNumber ≤ (c.PartsInfo.length : Int))
    (hu1 : 1 ≤ q.PartNumber) (hu2 : q.PartNumber ≤ (u.PartsInfo.length : Int)) :
    ((c.UpdatePartsInfo p).PartsInfo[(p.PartNumber - 1).toNat]? = some p ∧
      (∀ i : Nat, i ≠ (p.PartNumber - 1).toNat →
        (c.UpdatePartsInfo p).PartsInfo[i]? = c.PartsInfo[i]?) ∧
      (c.UpdatePartsInfo p).PartsInfo.length = c.PartsInfo.length ∧
      (c.UpdatePartsInfo p).checkpointPath = c.checkpointPath ∧
      (c.UpdatePartsInfo p).Bucket = c.Bucket ∧
      (c.UpdatePartsInfo p).Key = c.Key ∧
      (c.UpdatePartsInfo p).VersionID = c.VersionID ∧
      (c.UpdatePartsInfo p).PartSize = c.PartSize ∧
      (c.UpdatePartsInfo p).IfMatch = c.IfMatch ∧
      (c.UpdatePartsInfo p).IfModifiedSince = c.IfModifiedSince ∧
      (c.UpdatePartsInfo p).IfNoneMatch = c.IfNoneMatch ∧
      (c.UpdatePartsInfo p).IfUnmodifiedSince = c.IfUnmodifiedSince ∧
      (c.UpdatePartsInfo p).SSECAlgorithm = c.SSECAlgorithm ∧
      (c.UpdatePartsInfo p).SSECKeyMD5 = c.SSECKeyMD5 ∧
      (c.UpdatePartsInfo p).ObjectInfo = c.ObjectInfo ∧
      (c.UpdatePartsInfo p).FileInfo = c.FileInfo ∧
      ((∀ i : Nat, ∀ r ∈ c.PartsInfo[i]?, r.PartNumber = (i : Int) + 1) →
        ∀ i : Nat, ∀ r ∈ (c.UpdatePartsInfo p).PartsInfo[i]?,
          r.PartNumber = (i : Int) + 1)) ∧
    ((u.UpdatePartsInfo q).PartsInfo[(q.PartNumber - 1).toNat]? = some q ∧
      (∀ i : Nat, i ≠ (q.PartNumber - 1).toNat →
        (u.UpdatePartsInfo q).PartsInfo[i]? = u.PartsInfo[i]?) ∧
      (u.UpdatePartsInfo q).PartsInfo.length = u.PartsInfo.length ∧
      (u.UpdatePartsInfo q).checkpointPath = u.checkpointPath ∧
      (u.UpdatePartsInfo q).Bucket = u.Bucket ∧
      (u.UpdatePartsInfo q).Key = u.Key ∧
      (u.UpdatePartsInfo q).UploadID = u.UploadID ∧
      (u.UpdatePartsInfo q).PartSize = u.PartSize ∧
      (u.UpdatePartsInfo q).SSECAlgorithm = u.SSECAlgorithm ∧
      (u.UpdatePartsInfo q).SSECKeyMD5 = u.SSECKeyMD5 ∧
      (u.UpdatePartsInfo q).EncodingType = u.EncodingType ∧
      (u.UpdatePartsInfo q).FilePath = u.FilePath ∧
      (u.UpdatePartsInfo q).FileInfo = u.FileInfo ∧
      ((∀ i : Nat, ∀ r ∈ u.PartsInfo[i]?, r.PartNumber = (i : Int) + 1) →
        ∀ i : Nat, ∀ r ∈ (u.UpdatePartsInfo q).PartsInfo[i]?,
          r.PartNumber = (i : Int) + 1)) := by
  have hcb : (p.PartNumber - 1).toNat < c.PartsInfo.length := by omega
  have hub : (q.PartNumber - 1).toNat < u.PartsInfo.length := by omega
  constructor
  · refine ⟨List.getElem?_set_self hcb,
      fun i hi => List.getElem?_set_ne (Ne.symm hi),
      c.PartsInfo.length_set _ _, rfl, rfl, rfl, rfl, rfl, rfl, rfl, rfl, rfl, rfl,
      rfl, rfl, rfl, ?_⟩
    intro h i r hr
    by_cases hi : i = (p.PartNumber - 1).toNat
    · subst hi
      have hr' : r ∈ (c.PartsInfo.set (p.PartNumber - 1).toNat p)[(p.PartNumber - 1).toNat]? :=
        hr
      rw [List.getElem?_set_self hcb] at hr'
      simp only [Option.mem_def, Option.some.injEq] at hr'
      subst hr'
      omega
    · have hr' : r ∈ (c.PartsInfo.set (p.PartNumber - 1).toNat p)[i]? := hr
      rw [List.getElem?_set_ne (Ne.symm hi)] at hr'
      exact h i r hr'
  · refine ⟨List.getElem?_set_self hub,
      fun i hi => List.getElem?_set_ne (Ne.symm hi),
      u.PartsInfo.length_set _ _, rfl, rfl, rfl, rfl, rfl, rfl, rfl, rfl, rfl, rfl, ?_⟩
    intro h i r hr
    by_cases hi : i = (q.PartNumber - 1).toNat
    · subst hi
      have hr' : r ∈ (u.PartsInfo.set (q.PartNumber - 1).toNat q)[(q.PartNumber - 1).toNat]? :=
        hr
      rw [List.getElem?_set_self hub] at hr'
      simp only [Option.mem_def, Option.some.injEq] at hr'
      subst hr'
      omega
    · have hr' : r ∈ (u.PartsInfo.set (q.PartNumber - 1).toNat q)[i]? := hr
      rw [List.getElem?_set_ne (Ne.symm hi)] at hr'
      exact h i r hr'

/-- C6 witness: on concrete two-part checkpoints, recording part 2
stores the record at index 1. -/
theorem UpdatePartsInfo_frame_witness :
    (sampleDownloadCp.UpdatePartsInfo
        { PartNumber := 2, RangeStart := 4, RangeEnd := 7, HashCrc64ecma := 9,
          IsCompleted := true }).PartsInfo[(((2 : Int)) - 1).toNat]? =
      some { PartNumber := 2, RangeStart := 4, RangeEnd := 7, HashCrc64ecma := 9,
             IsCompleted := true } :=
  (UpdatePartsInfo_frame sampleDownloadCp
    { PartNumber := 2, RangeStart := 4, RangeEnd := 7, HashCrc64ecma := 9,
      IsCompleted := true }
    sampleUploadCp
    { uploadID := none, PartNumber := 2, PartSize := 4, Offset := 4, ETag := "e2",
      HashCrc64ecma := 3, IsCompleted := true }
    (by decide) (by decide) (by decide) (by decide)).1.1

/-- A context that is nil, or has neither a cancellation nor a deadline,
always passes `worthToRetry`. -/
theorem worthToRetry_of_unrestricted (ctx : Option goContext)
    (hctx : ctx = none ∨ ctx = some { cancelled := false, deadline := none }) :
    ∀ (now : timeStamp) (waitTime : duration), worthToRetry ctx now waitTime = true := by
  intro now waitTime
  rcases hctx with h | h <;> subst h <;>
    simp [worthToRetry, goContext.errAt]

/-- Closed form of the retry loop when the classifier always answers
`Retry` and every `worthToRetry` check passes: it consumes the whole
backoff pattern, sleeping each entry and re-invoking `work` once per
entry. -/
theorem runAux_all_retry (ctx : Option goContext) (work : Nat → Option Nat)
    (classify : Option Nat → retryAction)
    (hclassify : ∀ e, classify e = retryAction.Retry)
    (hworth : ∀ (now : timeStamp) (waitTime : duration),
      worthToRetry ctx now waitTime = true) :
    ∀ (bs : List duration) (calls : Nat) (ferr : Option Nat) (now : timeStamp),
      runAux ctx work classify bs calls ferr now =
        { calls := calls + bs.length, sleeps := bs,
          result := if bs.isEmpty then ferr else work (calls + bs.length - 1) } := by
  intro bs
  induction bs with
  | nil => intro calls ferr now; simp [runAux]
  | cons b rest ih =>
    intro calls ferr now
    rw [runAux, if_pos (hclassify ferr), if_pos (by rw [hworth now b]),
      ih (calls + 1) (work calls) (now + b)]
    cases rest with
    | nil => simp
    | cons r rs =>
      have harg : calls + 1 + (r :: rs).length - 1 = calls + (b :: r :: rs).length - 1 := by
        simp only [List.length_cons]
        omega
      rw [harg]
      simp only [runTrace.mk.injEq, List.isEmpty_cons, List.length_cons,
        Bool.false_eq_true, if_false]
      exact ⟨by omega, trivial, trivial⟩

/-- C2: with a backoff sequence of length `k`, a context without
cancellation or deadline, a work function that fails on every call, and
a classifier that answers `Retry` for every error, `retryer.Run` calls
the work function exactly `1 + k` times and returns the error of the
last call. -/
theorem run_attempts (r : retryer) (ctx : Option goContext)
    (work : Nat → Option Nat) (classify : Option Nat → retryAction) (now : timeStamp)
    (hctx : ctx = none ∨ ctx = some { cancelled := false, deadline := none })
    (_hfail : ∀ i, work i ≠ none)
    (hclassify : ∀ e, classify e = retryAction.Retry) :
    (r.Run ctx work classify now).calls = 1 + r.backoff.length ∧
      (r.Run ctx work classify now).result = work r.backoff.length := by
  have h := runAux_all_retry ctx work classify hclassify
    (worthToRetry_of_unrestricted ctx hctx) r.backoff 1 (work 0) now
  rw [retryer.Run, h]
  constructor
  · rfl
  · cases hb : r.backoff with
    | nil => simp
    | cons b rest => simp

/-- C2 witness: backoff of length 3, nil context, always-failing work,
always-`Retry` classifier — 4 calls, and the 4th call's error comes
back. -/
theorem run_attempts_witness :
    ((newRetryer [10, 20, 30]).Run none (fun i => some i)
        (fun _ => retryAction.Retry) 0).calls = 4 ∧
      ((newRetryer [10, 20, 30]).Run none (fun i => some i)
        (fun _ => retryAction.Retry) 0).result = some 3 := by
  have h := run_attempts (newRetryer [10, 20, 30]) none (fun i => some i)
    (fun _ => retryAction.Retry) 0 (Or.inl rfl)
    (fun i => by simp) (fun e => rfl)
  exact ⟨h.1.trans (by rfl), h.2.trans (by rfl)⟩

/-- C3: at any iteration of the retry loop of `retryer.Run`, before the
sleep, the deadline check runs: if the context is already cancelled, or
the scheduled sleep added to the current time would exceed the context's
deadline, the loop returns the last error immediately — no further
sleep is performed and the work function is not called again. -/
theorem runAux_deadline_stop (c : goContext) (work : Nat → Option Nat)
    (classify : Option Nat → retryAction) (b : duration) (rest : List duration)
    (calls : Nat) (ferr : Option Nat) (now : timeStamp)
    (hclassify : classify ferr = retryAction.Retry)
    (hstop : c.cancelled = true ∨
      ∃ d, c.deadline = some d ∧ ¬(now + b ≤ d)) :
    runAux (some c) work classify (b :: rest) calls ferr now =
      { calls := calls, sleeps := [], result := ferr } := by
  have hworth : worthToRetry (some c) now b = false := by
    rcases hstop with hcanc | ⟨d, hd, hgt⟩
    · simp [worthToRetry, goContext.errAt, hcanc]
    · simp only [worthToRetry, goContext.errAt, hd]
      by_cases hde : d ≤ now
      · simp [hde]
      · simp [hde, hgt]
  rw [runAux, if_pos hclassify, hworth]
  simp

/-- C3 witness: with an already-cancelled context, a pending backoff
entry and a `Retry` answer, the loop stops at once with the last error,
no sleep and no extra call. -/
theorem runAux_deadline_stop_witness :
    runAux (some { cancelled := true, deadline := none }) (fun i => some i)
        (fun _ => retryAction.Retry) [5] 1 (some 3) 0 =
      { calls := 1, sleeps := [], result := some 3 } :=
  runAux_deadline_stop { cancelled := true, deadline := none } (fun i => some i)
    (fun _ => retryAction.Retry) 5 [] 1 (some 3) 0 rfl (Or.inl rfl)

/-- Once the one-shot flag is set, `Cancel` is a no-op for any argument. -/
theorem Cancel_after_called (t : cancelerState) (b : Bool) (h : t.called = true) :
    canceler.Cancel t b = t := by
  rw [canceler.Cancel]
  by_cases hh : t.hasHandle = false
  · rw [if_pos hh]
  · rw [if_neg hh, if_neg (by simp [h])]

/-- A state whose flag is set is a fixed point of any call sequence. -/
theorem runCancels_after_called (t : cancelerState) (calls : List Bool)
    (h : t.called = true) : canceler.runCancels t calls = t := by
  induction calls with
  | nil => rfl
  | cons b rest ih =>
    show canceler.runCancels (canceler.Cancel t b) rest = t
    rw [Cancel_after_called t b h, ih]

/-- A state with a nil cancel handle is a fixed point of any call
sequence. -/
theorem runCancels_no_handle (t : cancelerState) (calls : List Bool)
    (h : t.hasHandle = false) : canceler.runCancels t calls = t := by
  induction calls with
  | nil => rfl
  | cons b rest ih =>
    show canceler.runCancels (canceler.Cancel t b) rest = t
    rw [canceler.Cancel, if_pos h, ih]

/-- C4: over any linearized sequence of `Cancel` invocations against a
fresh canceler, the cleanup action and the abort action each run at most
once in total; when both run, cleanup runs before abort; they run only
when the handle is non-nil and the flag-winning (first) call passed
`isAbort = true`; and any call against a state whose flag is already set
is a no-op. -/
theorem cancel_one_shot (s : cancelerState) (calls : List Bool)
    (h1 : s.called = false) (h2 : s.events = []) :
    ((canceler.runCancels s calls).events.count cancelEvent.cleanerRun ≤ 1 ∧
      (canceler.runCancels s calls).events.count cancelEvent.aborterRun ≤ 1) ∧
    ((canceler.runCancels s calls).events.filter cancelEvent.isEffect = [] ∨
      (canceler.runCancels s calls).events.filter cancelEvent.isEffect =
        [cancelEvent.cleanerRun] ∨
      (canceler.runCancels s calls).events.filter cancelEvent.isEffect =
        [cancelEvent.aborterRun] ∨
      (canceler.runCancels s calls).events.filter cancelEvent.isEffect =
        [cancelEvent.cleanerRun, cancelEvent.aborterRun]) ∧
    ((cancelEvent.cleanerRun ∈ (canceler.runCancels s calls).events ∨
        cancelEvent.aborterRun ∈ (canceler.runCancels s calls).events) →
      s.hasHandle = true ∧ calls.head? = some true) ∧
    (∀ (t : cancelerState) (b : Bool), t.called = true → canceler.Cancel t b = t) := by
  cases calls with
  | nil =>
    refine ⟨⟨?_, ?_⟩, Or.inl ?_, ?_, Cancel_after_called⟩ <;>
      simp [canceler.runCancels, h2]
  | cons b rest =>
    by_cases hh : s.hasHandle = false
    · rw [show canceler.runCancels s (b :: rest) = s from
        runCancels_no_handle s (b :: rest) hh]
      refine ⟨⟨?_, ?_⟩, Or.inl ?_, ?_, Cancel_after_called⟩ <;> simp [h2]
    · have hht : s.hasHandle = true := by
        cases hv : s.hasHandle
        · exact absurd hv hh
        · rfl
      have hstep : canceler.runCancels s (b :: rest) = canceler.Cancel s b := by
        show canceler.runCancels (canceler.Cancel s b) rest = canceler.Cancel s b
        refine runCancels_after_called _ rest ?_
        rw [canceler.Cancel, if_neg hh, if_pos (by simp [h1])]
      have hcancel : canceler.Cancel s b =
          { s with called := true,
                   events :=
                     (if b then
                        (if s.hasCleaner then [cancelEvent.cleanerRun] else []) ++
                          (if s.hasAborter then [cancelEvent.aborterRun] else [])
                      else []) ++ [cancelEvent.handleClosed] } := by
        rw [canceler.Cancel, if_neg hh, if_pos (by simp [h1])]
        simp [h2]
      rw [hstep, hcancel]
      refine ⟨?_, ?_, ?_, Cancel_after_called⟩
      · cases b <;> cases hcl : s.hasCleaner <;> cases hab : s.hasAborter <;>
          simp [hcl, hab]
      · cases b <;> cases hcl : s.hasCleaner <;> cases hab : s.hasAborter <;>
          simp [hcl, hab, cancelEvent.isEffect]
      · cases b with
        | false =>
          intro hmem
          simp at hmem
        | true => exact fun _ => ⟨hht, rfl⟩

/-- C4 witness: two calls, first with `isAbort = true`, against a fresh
canceler with both actions installed — the cleanup action runs at most
once. -/
theorem cancel_one_shot_witness :
    (canceler.runCancels
        { hasHandle := true, called := false, hasCleaner := true,
          hasAborter := true, events := [] }
        [true, false]).events.count cancelEvent.cleanerRun ≤ 1 :=
  (cancel_one_shot
    { hasHandle := true, called := false, hasCleaner := true,
      hasAborter := true, events := [] }
    [true, false] rfl rfl).1.1

/-- The flush threshold is positive. -/
theorem flushThreshold_pos : 0 < flushThreshold := by norm_num [flushThreshold]

/-- A successful read of at most zero bytes posts nothing and leaves
the counters unchanged. -/
theorem parallelRead_nonpos (total : Int) (s : listenerState) (n : Int)
    (h : n ≤ 0) : parallelRead total s n false = (s, []) := by
  simp [parallelRead, h]

/-- A sequence of successful reads of at most zero bytes each posts
nothing and leaves the counters unchanged. -/
theorem parallelReads_nonpos (total : Int) (ns : List Int)
    (h : ∀ n ∈ ns, n ≤ 0) :
    ∀ s : listenerState, parallelReads total s (ns.map fun n => (n, false)) = (s, []) := by
  induction ns with
  | nil => intro s; rfl
  | cons n rest ih =>
    intro s
    simp only [List.map_cons, parallelReads]
    rw [parallelRead_nonpos total s n (h n (by simp))]
    have ht := ih (fun m hm => h m (by simp [hm])) s
    simp [ht]

/-- The read on which cumulative consumed reaches the declared total
posts exactly an `RW` event carrying the whole accumulated sub-total
followed by the `Succeed` event, whether or not the sub-total crossed
the 4 MiB threshold. -/
theorem parallelRead_final (total c st n : Int) (hn : 0 < n) (hfin : c + n = total) :
    parallelRead total { consumed := c, subtotal := st } n false =
      ({ consumed := c + n,
         subtotal := if flushThreshold ≤ st + n then 0 else st + n },
        [transferEvent.rw (st + n) (c + n) total,
         transferEvent.succeed (c + n) total]) := by
  have hn' : ¬n ≤ 0 := by omega
  by_cases hth : flushThreshold ≤ st + n
  · simp [parallelRead, hn', hth, hfin, not_lt.mpr hth]
  · simp [parallelRead, hn', hth, hfin, not_le.mp hth]

/-- A read that does not reach the declared total posts an `RW` event
(carrying the accumulated sub-total) exactly when the sub-total reached
the 4 MiB threshold, in which case the stored sub-total resets to
zero. -/
theorem parallelRead_mid (total c st n : Int) (hn : 0 < n) (hfin : c + n ≠ total) :
    parallelRead total { consumed := c, subtotal := st } n false =
      ({ consumed := c + n,
         subtotal := if flushThreshold ≤ st + n then 0 else st + n },
        if flushThreshold ≤ st + n then [transferEvent.rw (st + n) (c + n) total]
        else []) := by
  have hn' : ¬n ≤ 0 := by omega
  by_cases hth : flushThreshold ≤ st + n
  · simp [parallelRead, hn', hth, hfin]
  · simp [parallelRead, hn', hth, hfin]

/-- Main induction for C5: from any mid-transfer state (consumed `c`
below the total, stored sub-total in `[0, 4 MiB)`), a sequence of
successful non-negative reads whose counts reach exactly the total
produces a trace that ends with a final `RW` flush carrying a positive
sub-total at `consumed = total` followed by the single `Succeed`
event. -/
theorem parallelReads_reaches_total (total : Int) (ns : List Int) :
    ∀ c st : Int, 0 ≤ st → st < flushThreshold → c < total →
      (∀ n ∈ ns, 0 ≤ n) → c + ns.sum = total →
      ∃ pre s2,
        (parallelReads total { consumed := c, subtotal := st }
            (ns.map fun n => (n, false))).2 =
          pre ++ [transferEvent.rw s2 total total,
                  transferEvent.succeed total total] ∧
        0 < s2 ∧
        succeedCount (parallelReads total { consumed := c, subtotal := st }
            (ns.map fun n => (n, false))).2 = 1 := by
  induction ns with
  | nil =>
    intro c st _ _ hlt _ hsum
    rw [List.sum_nil] at hsum
    exact absurd hsum (by omega)
  | cons n rest ih =>
    intro c st hst0 hstlt hlt hn hsum
    rw [List.sum_cons] at hsum
    have hn0 : 0 ≤ n := hn n (by simp)
    have hrest : ∀ m ∈ rest, 0 ≤ m := fun m hm => hn m (by simp [hm])
    have hrsum : 0 ≤ rest.sum := List.sum_nonneg hrest
    simp only [List.map_cons, parallelReads]
    rcases eq_or_lt_of_le hn0 with hz | hpos
    · rw [parallelRead_nonpos total _ n (by omega)]
      have := ih c st hst0 hstlt hlt hrest (by omega)
      obtain ⟨pre, s2, htr, hs2, hcnt⟩ := this
      exact ⟨pre, s2, by simpa using htr, hs2, by simpa using hcnt⟩
    · by_cases hfin : c + n = total
      · have hz : rest.sum = 0 := by omega
        have hallz : ∀ m ∈ rest, m ≤ 0 := by
          intro m hm
          have h1 := List.single_le_sum hrest m hm
          omega
        rw [parallelRead_final total c st n hpos hfin,
          parallelReads_nonpos total rest hallz]
        refine ⟨[], st + n, ?_, by omega, ?_⟩
        · simp [hfin]
        · simp [succeedCount, List.countP_cons, transferEvent.isSucceed]
      · have hle : c + n < total := by omega
        rw [parallelRead_mid total c st n hpos hfin]
        have hst2a : 0 ≤ (if flushThreshold ≤ st + n then 0 else st + n) := by
          split <;> omega
        have hst2b : (if flushThreshold ≤ st + n then 0 else st + n) < flushThreshold := by
          have := flushThreshold_pos
          split <;> omega
        obtain ⟨pre, s2, htr, hs2, hcnt⟩ :=
          ih (c + n) (if flushThreshold ≤ st + n then 0 else st + n)
            hst2a hst2b hle hrest (by omega)
        refine ⟨(if flushThreshold ≤ st + n
            then [transferEvent.rw (st + n) (c + n) total] else []) ++ pre, s2, ?_, hs2, ?_⟩
        · rw [htr, List.append_assoc]
        · dsimp only
          rw [succeedCount, List.countP_append]
          have hz2 : List.countP transferEvent.isSucceed
              (if flushThreshold ≤ st + n
               then [transferEvent.rw (st + n) (c + n) total] else []) = 0 := by
            split <;> simp [transferEvent.isSucceed]
          rw [hz2]
          simpa [succeedCount] using hcnt

/-- C5 (amended): for every positive declared total and every sequence
of successful reads whose byte counts are non-negative and sum to the
total, exactly one `Succeed` event is emitted; it is emitted on the read
where cumulative consumed first equals the total, immediately preceded
on that read by an `RW` flush of the positive pending sub-total (the
trace ends with that flush followed by the `Succeed` event, and nothing
is emitted afterwards); moreover on any read where the sub-total reaches
the 4 MiB threshold, an `RW` event carrying that sub-total, cumulative
consumed and the total is emitted first and the stored sub-total resets
to zero. -/
theorem parallel_listener_succeed_once (total : Int) (ns : List Int)
    (h1 : 0 < total) (h2 : ∀ n ∈ ns, 0 ≤ n) (h3 : ns.sum = total) :
    (∃ pre s2,
      (parallelReads total { consumed := 0, subtotal := 0 }
          (ns.map fun n => (n, false))).2 =
        pre ++ [transferEvent.rw s2 total total,
                transferEvent.succeed total total] ∧
      0 < s2 ∧
      succeedCount (parallelReads total { consumed := 0, subtotal := 0 }
          (ns.map fun n => (n, false))).2 = 1) ∧
    (∀ (s : listenerState) (n : Int), 0 < n → flushThreshold ≤ s.subtotal + n →
      (parallelRead total s n false).1.subtotal = 0 ∧
      (parallelRead total s n false).2.head? =
        some (transferEvent.rw (s.subtotal + n) (s.consumed + n) total)) := by
  constructor
  · exact parallelReads_reaches_total total ns 0 0 le_rfl flushThreshold_pos h1 h2
      (by rw [zero_add]; exact h3)
  · intro s n hn hth
    have hn' : ¬n ≤ 0 := by omega
    by_cases hfin : s.consumed + n = total
    · constructor <;> simp [parallelRead, hn', hth, hfin, not_lt.mpr hth]
    · constructor <;> simp [parallelRead, hn', hth, hfin, not_lt.mpr hth]

/-- C5 counterexample: with declared total `0` and a single successful
read of `0` bytes — a read sequence whose successfully read byte counts
sum to the declared total — the decorator posts no event at all, so it
does not emit exactly one `Succeed` event. -/
theorem parallel_listener_zero_total :
    (parallelReads 0 { consumed := 0, subtotal := 0 } [(0, false)]).2 = [] ∧
      succeedCount
        (parallelReads 0 { consumed := 0, subtotal := 0 } [(0, false)]).2 ≠ 1 := by
  constructor <;> decide

/-- C5 witness: a 7-byte transfer read as 3 bytes then 4 bytes emits
exactly one `Succeed` event. -/
theorem parallel_listener_succeed_once_witness :
    succeedCount ((parallelReads 7 { consumed := 0, subtotal := 0 }
        ([3, 4].map fun n => (n, false))).2) = 1 := by
  obtain ⟨⟨pre, s2, htr, hs2, hcnt⟩, hstep⟩ :=
    parallel_listener_succeed_once 7 [3, 4] (by norm_num)
      (by decide) (by decide)
  exact hcnt

end Tos
